import Mathlib

/-!
Shallow embedding of the `World` module of a rigid-body physics engine
(`src/world/World.js`) and verification of the specification's claims
about it.  Scalars are modelled as rationals; JS arrays as Lean lists.
Collaborator classes that live outside `src` (Vec3, Quaternion,
ArrayCollisionMatrix, Material, ContactMaterial, FrictionEquation) are
modelled from the specification where their behaviour matters, and each
such definition is marked in its doc comment.
-/

namespace Cannon

/-- Three-component vector (math/Vec3, outside src).  Only the
components are needed by the embedded World code. -/
structure Vec3 where
  x : ℚ
  y : ℚ
  z : ℚ
deriving DecidableEq, Repr

/-- Quaternion (math/Quaternion, outside src). -/
structure Quat where
  x : ℚ
  y : ℚ
  z : ℚ
  w : ℚ
deriving DecidableEq, Repr

/-- Material record.  Modelled from the spec: `id (−1 = unregistered
sentinel, else sequential by insertion order)`. -/
structure Material where
  id : ℤ
deriving DecidableEq, Repr

/-- Contact material record.  Fields are the ones read and written by
World.js (friction, restitution, stiffness, regularization time, the
two constituent materials, and the sequential id); the class itself
lives outside src. -/
structure ContactMaterial where
  mat0 : Material
  mat1 : Material
  friction : ℚ
  restitution : ℚ
  contactEquationStiffness : ℚ
  contactEquationRegularizationTime : ℚ
  id : ℤ
deriving DecidableEq, Repr

/-- The material-registry fragment of the World state:
`this.materials`, `this.contactmaterials` and the pair-index table
`this.mats2cmat` (World.js lines 132-140). -/
structure MatState where
  materials : List Material
  contactmaterials : List ContactMaterial
  mats2cmat : List ℤ
deriving DecidableEq, Repr

/-- The empty material registry (constructor state). -/
def MatState.empty : MatState := ⟨[], [], []⟩

/-- Read `t[a]` for a JS array of integers: a negative or out-of-range
index yields `undefined`, modelled as `none`. -/
def tblGet (t : List ℤ) (a : ℤ) : Option ℤ :=
  if a < 0 then none else t[a.toNat]?

/-- Write `t[a] = v` on a JS array of integers, extending the array with
holes when `a` is beyond the current length.  Holes are represented by
the sentinel `-1`: through `getContactMaterial` a hole and a `-1` are
observationally identical (both make the contact-material lookup yield
`undefined`).  A negative index (possible in JS via property keys) is
dropped; the verified claims only exercise registered material ids,
which are nonnegative. -/
def tblSet (t : List ℤ) (a : ℤ) (v : ℤ) : List ℤ :=
  if a < 0 then t
  else if a.toNat < t.length then t.set a.toNat v
  else (t ++ List.replicate (a.toNat + 1 - t.length) (-1)).set a.toNat v

/-- Read `l[a]` on the contact-material list (JS array indexing). -/
def cmatGet (l : List ContactMaterial) (a : ℤ) : Option ContactMaterial :=
  if a < 0 then none else l[a.toNat]?

/-- `World.prototype.addMaterial` (World.js lines 306-317): no-op unless
`m.id === -1`; otherwise push `m`, set its id to the new last index, and
append `2*n+1` sentinel `-1` slots to `mats2cmat` (`n` = previous
count).  JS mutates `m` in place; the updated material is returned
alongside the new state. -/
def addMaterial (s : MatState) (m : Material) : MatState × Material :=
  if m.id = -1 then
    let n := s.materials.length
    let m' : Material := { m with id := (n : ℤ) }
    ({ s with
        materials := s.materials ++ [m'],
        mats2cmat := s.mats2cmat ++ List.replicate (2 * n + 1) (-1) }, m')
  else (s, m)

/-- `World.prototype.getContactMaterial` (World.js lines 193-206):
canonicalize so `i ≥ j`, then return
`contactmaterials[mats2cmat[i + j * materials.length]]`.  A `none`
material models a non-`Material` argument (the `instanceof` guard
fails and the JS function returns `undefined`). -/
def getContactMaterial (s : MatState) :
    Option Material → Option Material → Option ContactMaterial
  | some m1, some m2 =>
    let ij := if m1.id < m2.id then (m2.id, m1.id) else (m1.id, m2.id)
    match tblGet s.mats2cmat (ij.1 + ij.2 * (s.materials.length : ℤ)) with
    | some v => cmatGet s.contactmaterials v
    | none => none
  | _, _ => none

/-- `World.prototype.addContactMaterial` (World.js lines 324-347):
register both constituent materials (idempotent), canonicalize the id
pair so `i ≥ j`, push the contact material with a sequential id, and
store that id at table address `i + materials.length * j` (the length
taken after the two `addMaterial` calls).  JS mutates the shared
material and contact-material objects; the updated contact material is
returned alongside the new state. -/
def addContactMaterial (s : MatState) (cm : ContactMaterial) :
    MatState × ContactMaterial :=
  let p0 := addMaterial s cm.mat0
  let p1 := addMaterial p0.1 cm.mat1
  let s2 := p1.1
  let m0 := p0.2
  let m1 := p1.2
  let ij := if m0.id > m1.id then (m0.id, m1.id) else (m1.id, m0.id)
  let cm' : ContactMaterial :=
    { cm with mat0 := m0, mat1 := m1, id := (s2.contactmaterials.length : ℤ) }
  ({ s2 with
      contactmaterials := s2.contactmaterials ++ [cm'],
      mats2cmat :=
        tblSet s2.mats2cmat (ij.1 + (s2.materials.length : ℤ) * ij.2) cm'.id },
    cm')

/-! Helper lemmas about the pair-index table primitives. -/

theorem tblGet_tblSet_self (t : List ℤ) (a v : ℤ) (ha : 0 ≤ a) :
    tblGet (tblSet t a v) a = some v := by
  simp only [tblGet, tblSet, if_neg (not_lt.mpr ha)]
  by_cases h : a.toNat < t.length
  · simp only [if_pos h]
    exact List.getElem?_set_eq_of_lt v h
  · simp only [if_neg h]
    refine List.getElem?_set_eq_of_lt v ?_
    simp only [List.length_append, List.length_replicate]
    omega

theorem tblSet_length_gt (t : List ℤ) (a v : ℤ) (ha : 0 ≤ a) :
    a.toNat < (tblSet t a v).length := by
  simp only [tblSet, if_neg (not_lt.mpr ha)]
  by_cases h : a.toNat < t.length
  · rw [if_pos h, List.length_set]
    exact h
  · simp only [if_neg h, List.length_set, List.length_append, List.length_replicate]
    omega

theorem tblGet_append_of_lt (t u : List ℤ) (a : ℤ) (ha : 0 ≤ a)
    (h : a.toNat < t.length) : tblGet (t ++ u) a = tblGet t a := by
  simp only [tblGet, if_neg (not_lt.mpr ha)]
  rw [List.getElem?_append, if_pos h]

theorem cmatGet_append_self (l : List ContactMaterial) (x : ContactMaterial) :
    cmatGet (l ++ [x]) ((l.length : ℤ)) = some x := by
  simp [cmatGet]

theorem addMaterial_contactmaterials (s : MatState) (m : Material) :
    (addMaterial s m).1.contactmaterials = s.contactmaterials := by
  unfold addMaterial; split <;> rfl

theorem addMaterial_snd_id_nonneg (s : MatState) (m : Material)
    (h : -1 ≤ m.id) : 0 ≤ (addMaterial s m).2.id := by
  unfold addMaterial; split
  · simp
  · next h2 =>
    show 0 ≤ m.id
    omega

theorem addMaterial_mats2cmat_extend (s : MatState) (m : Material) :
    ∃ u, (addMaterial s m).1.mats2cmat = s.mats2cmat ++ u := by
  unfold addMaterial; split
  · exact ⟨_, rfl⟩
  · exact ⟨[], (List.append_nil _).symm⟩

theorem storePair_eq (a b : ℤ) :
    (if a > b then (a, b) else (b, a)) = (max a b, min a b) := by
  rcases le_or_lt a b with h | h
  · rw [if_neg (not_lt.mpr h), max_comm, max_eq_left h, min_eq_left h]
  · rw [if_pos h, max_eq_left h.le, min_eq_right h.le]

theorem lookupPair_eq (a b : ℤ) :
    (if a < b then (b, a) else (a, b)) = (max a b, min a b) := by
  rcases lt_or_le a b with h | h
  · rw [if_pos h, max_eq_right h.le, min_eq_left h.le]
  · rw [if_neg (not_lt.mpr h), max_eq_left h, min_eq_right h]

/-- Looking up a pair immediately after its contact material was stored
returns it: store and lookup canonicalize the pair identically and use
the same address when the material count is unchanged. -/
theorem getContactMaterial_store (s2 : MatState) (m0 m1 : Material)
    (cm : ContactMaterial) (h0 : 0 ≤ m0.id) (h1 : 0 ≤ m1.id)
    (hid : cm.id = (s2.contactmaterials.length : ℤ)) :
    getContactMaterial
      { s2 with
        contactmaterials := s2.contactmaterials ++ [cm],
        mats2cmat := tblSet s2.mats2cmat
          ((if m0.id > m1.id then (m0.id, m1.id) else (m1.id, m0.id)).1 +
            (s2.materials.length : ℤ) *
            (if m0.id > m1.id then (m0.id, m1.id) else (m1.id, m0.id)).2) cm.id }
      (some m0) (some m1) = some cm := by
  have hmin : 0 ≤ min m0.id m1.id := le_min h0 h1
  have hmax : 0 ≤ max m0.id m1.id := le_trans h0 (le_max_left _ _)
  have hmul : 0 ≤ (s2.materials.length : ℤ) * min m0.id m1.id :=
    mul_nonneg (Int.natCast_nonneg _) hmin
  simp only [getContactMaterial, storePair_eq, lookupPair_eq,
    max_comm m1.id m0.id, min_comm m1.id m0.id]
  have haddr : max m0.id m1.id + min m0.id m1.id * (s2.materials.length : ℤ) =
      max m0.id m1.id + (s2.materials.length : ℤ) * min m0.id m1.id := by ring
  rw [haddr, tblGet_tblSet_self _ _ _ (by omega), hid]
  exact cmatGet_append_self _ _

/-- One `addMaterial` call preserves any in-range read of the pair
table and leaves the contact-material list alone. -/
theorem addMaterial_tblGet_stable (s : MatState) (m : Material) (a : ℤ)
    (ha : 0 ≤ a) (h : a.toNat < s.mats2cmat.length) :
    tblGet (addMaterial s m).1.mats2cmat a = tblGet s.mats2cmat a ∧
      a.toNat < (addMaterial s m).1.mats2cmat.length := by
  obtain ⟨u, hu⟩ := addMaterial_mats2cmat_extend s m
  rw [hu]
  exact ⟨tblGet_append_of_lt _ _ _ ha h, by simp only [List.length_append]; omega⟩

/-- Folding any sequence of `addMaterial` calls preserves in-range pair
table reads and the contact-material list. -/
theorem foldl_addMaterial_stable (ms : List Material) (s : MatState) (a : ℤ)
    (ha : 0 ≤ a) (h : a.toNat < s.mats2cmat.length) :
    tblGet ((ms.foldl (fun t m => (addMaterial t m).1) s)).mats2cmat a =
        tblGet s.mats2cmat a ∧
      (ms.foldl (fun t m => (addMaterial t m).1) s).contactmaterials =
        s.contactmaterials := by
  induction ms generalizing s with
  | nil => exact ⟨rfl, rfl⟩
  | cons m ms ih =>
    obtain ⟨hg, hl⟩ := addMaterial_tblGet_stable s m a ha h
    obtain ⟨ih1, ih2⟩ := ih (addMaterial s m).1 hl
    exact ⟨ih1.trans hg, ih2.trans (addMaterial_contactmaterials s m)⟩

/-- Lookup of a stored pair survives any later sequence of
`addMaterial` calls when the lower canonical id is 0, because the
stored address `i + count·0 = i` does not depend on the material
count. -/
theorem getContactMaterial_store_stable (s2 : MatState) (m0 m1 : Material)
    (cm : ContactMaterial) (ms : List Material)
    (h0 : 0 ≤ m0.id) (_h1 : 0 ≤ m1.id) (hmin : min m0.id m1.id = 0)
    (hid : cm.id = (s2.contactmaterials.length : ℤ)) :
    getContactMaterial
      (ms.foldl (fun t m => (addMaterial t m).1)
        { s2 with
          contactmaterials := s2.contactmaterials ++ [cm],
          mats2cmat := tblSet s2.mats2cmat
            ((if m0.id > m1.id then (m0.id, m1.id) else (m1.id, m0.id)).1 +
              (s2.materials.length : ℤ) *
              (if m0.id > m1.id then (m0.id, m1.id) else (m1.id, m0.id)).2)
            cm.id })
      (some m0) (some m1) = some cm := by
  have hmax : 0 ≤ max m0.id m1.id := le_trans h0 (le_max_left _ _)
  have haddr : (if m0.id > m1.id then (m0.id, m1.id) else (m1.id, m0.id)).1 +
      (s2.materials.length : ℤ) *
      (if m0.id > m1.id then (m0.id, m1.id) else (m1.id, m0.id)).2 =
      max m0.id m1.id := by
    simp only [storePair_eq]
    rw [hmin]
    ring
  rw [haddr]
  have hlen : (max m0.id m1.id).toNat <
      (tblSet s2.mats2cmat (max m0.id m1.id) cm.id).length :=
    tblSet_length_gt _ _ _ hmax
  obtain ⟨hstable, hcms⟩ := foldl_addMaterial_stable ms
    { s2 with
      contactmaterials := s2.contactmaterials ++ [cm],
      mats2cmat := tblSet s2.mats2cmat (max m0.id m1.id) cm.id }
    (max m0.id m1.id) hmax hlen
  simp only [getContactMaterial, lookupPair_eq,
    max_comm m1.id m0.id, min_comm m1.id m0.id]
  rw [hmin, zero_mul, add_zero, hstable]
  rw [show ({ s2 with
      contactmaterials := s2.contactmaterials ++ [cm],
      mats2cmat := tblSet s2.mats2cmat (max m0.id m1.id) cm.id } :
      MatState).mats2cmat = tblSet s2.mats2cmat (max m0.id m1.id) cm.id from rfl]
  rw [tblGet_tblSet_self _ _ _ hmax]
  rw [hcms]
  rw [hid]
  exact cmatGet_append_self _ _

/-- A three-material registry built by registering three fresh
materials; they receive ids 0, 1 and 2. -/
def exReg3 : MatState :=
  (addMaterial (addMaterial (addMaterial MatState.empty ⟨-1⟩).1 ⟨-1⟩).1 ⟨-1⟩).1

/-- A contact material between the materials with ids 1 and 2, so its
lower canonical id is 1 (not 0). -/
def exCmBC : ContactMaterial := ⟨⟨1⟩, ⟨2⟩, 1, 0, 100, 0, -1⟩

/-- Registry and registered contact material after `addContactMaterial`. -/
def exReg4 : MatState × ContactMaterial := addContactMaterial exReg3 exCmBC

/-- The same registry after one further fresh material is registered. -/
def exReg5 : MatState := (addMaterial exReg4.1 ⟨-1⟩).1

/-- Claim C7: for a material with a registered id (id different from
the sentinel -1), `addMaterial` changes nothing; for an unregistered
material it assigns the next sequential id (the previous count),
appends the material to the material list, and appends exactly
`2*n + 1` sentinel `-1` slots to the pair-index table. -/
theorem c7_addMaterial_growth (s : MatState) (m : Material) :
    (m.id ≠ -1 → addMaterial s m = (s, m)) ∧
    (m.id = -1 →
      (addMaterial s m).2 = { m with id := (s.materials.length : ℤ) } ∧
      (addMaterial s m).1.materials =
        s.materials ++ [{ m with id := (s.materials.length : ℤ) }] ∧
      (addMaterial s m).1.contactmaterials = s.contactmaterials ∧
      (addMaterial s m).1.mats2cmat =
        s.mats2cmat ++ List.replicate (2 * s.materials.length + 1) (-1)) := by
  constructor
  · intro h
    simp [addMaterial, h]
  · intro h
    simp [addMaterial, h]

/-- Witness for C7: registering a fresh material in the empty registry
grows the table by one sentinel slot, and re-adding a material whose id
is already set is a no-op. -/
theorem c7_addMaterial_growth_witness :
    ((⟨3⟩ : Material).id ≠ -1 ∧
      addMaterial MatState.empty ⟨3⟩ = (MatState.empty, ⟨3⟩)) ∧
    ((⟨-1⟩ : Material).id = -1 ∧
      (addMaterial MatState.empty ⟨-1⟩).2 = ⟨0⟩ ∧
      (addMaterial MatState.empty ⟨-1⟩).1.mats2cmat = [-1]) := by
  refine ⟨⟨by decide, (c7_addMaterial_growth MatState.empty ⟨3⟩).1 (by decide)⟩,
    by decide, ?_, ?_⟩
  · have h := (c7_addMaterial_growth MatState.empty ⟨-1⟩).2 rfl
    rw [h.1]
    decide
  · have h := (c7_addMaterial_growth MatState.empty ⟨-1⟩).2 rfl
    rw [h.2.2.2]
    decide

/-- Claim C10: `getContactMaterial` computes the table address from the
material count at lookup time while `addContactMaterial` stores at an
address computed from the count at registration time.  The round-trip
returns the registered contact material when no material has been added
since registration, and survives any later `addMaterial` calls when the
lower canonical id is 0; and for the concrete sequence registering a
pair with lower canonical id 1 and then adding one more material, the
lookup no longer returns the registered contact material. -/
theorem c10_contact_material_addressing :
    (∀ (s : MatState) (cm : ContactMaterial),
      -1 ≤ cm.mat0.id → -1 ≤ cm.mat1.id →
      getContactMaterial (addContactMaterial s cm).1
          (some (addContactMaterial s cm).2.mat0)
          (some (addContactMaterial s cm).2.mat1) =
        some (addContactMaterial s cm).2) ∧
    (∀ (s : MatState) (cm : ContactMaterial) (ms : List Material),
      -1 ≤ cm.mat0.id → -1 ≤ cm.mat1.id →
      min (addContactMaterial s cm).2.mat0.id
          (addContactMaterial s cm).2.mat1.id = 0 →
      getContactMaterial
          (ms.foldl (fun t m => (addMaterial t m).1) (addContactMaterial s cm).1)
          (some (addContactMaterial s cm).2.mat0)
          (some (addContactMaterial s cm).2.mat1) =
        some (addContactMaterial s cm).2) ∧
    (getContactMaterial exReg4.1 (some ⟨1⟩) (some ⟨2⟩) = some exReg4.2 ∧
      min exReg4.2.mat0.id exReg4.2.mat1.id = 1 ∧
      getContactMaterial exReg5 (some ⟨1⟩) (some ⟨2⟩) = none ∧
      getContactMaterial exReg5 (some ⟨1⟩) (some ⟨2⟩) ≠ some exReg4.2) := by
  refine ⟨?_, ?_, by decide⟩
  · intro s cm h0 h1
    have h0' := addMaterial_snd_id_nonneg s cm.mat0 h0
    have h1' := addMaterial_snd_id_nonneg (addMaterial s cm.mat0).1 cm.mat1 h1
    simp only [addContactMaterial]
    exact getContactMaterial_store _ _ _ _ h0' h1' rfl
  · intro s cm ms h0 h1 hmin
    have h0' := addMaterial_snd_id_nonneg s cm.mat0 h0
    have h1' := addMaterial_snd_id_nonneg (addMaterial s cm.mat0).1 cm.mat1 h1
    simp only [addContactMaterial] at hmin ⊢
    exact getContactMaterial_store_stable _ _ _ _ ms h0' h1' hmin rfl

/-- Witness for C10: a two-material world whose pair gets registered
and then looked up, both immediately and (for lower canonical id 0)
after a further material is added. -/
theorem c10_contact_material_addressing_witness :
    (-1 ≤ (⟨-1⟩ : Material).id ∧
      getContactMaterial
          (addContactMaterial MatState.empty ⟨⟨-1⟩, ⟨-1⟩, 1, 0, 100, 0, -1⟩).1
          (some (addContactMaterial MatState.empty
            ⟨⟨-1⟩, ⟨-1⟩, 1, 0, 100, 0, -1⟩).2.mat0)
          (some (addContactMaterial MatState.empty
            ⟨⟨-1⟩, ⟨-1⟩, 1, 0, 100, 0, -1⟩).2.mat1) =
        some (addContactMaterial MatState.empty
          ⟨⟨-1⟩, ⟨-1⟩, 1, 0, 100, 0, -1⟩).2) ∧
    getContactMaterial
        ([⟨-1⟩].foldl (fun t m => (addMaterial t m).1)
          (addContactMaterial MatState.empty ⟨⟨-1⟩, ⟨-1⟩, 1, 0, 100, 0, -1⟩).1)
        (some (addContactMaterial MatState.empty
          ⟨⟨-1⟩, ⟨-1⟩, 1, 0, 100, 0, -1⟩).2.mat0)
        (some (addContactMaterial MatState.empty
          ⟨⟨-1⟩, ⟨-1⟩, 1, 0, 100, 0, -1⟩).2.mat1) =
      some (addContactMaterial MatState.empty
        ⟨⟨-1⟩, ⟨-1⟩, 1, 0, 100, 0, -1⟩).2 := by
  refine ⟨⟨by decide, ?_⟩, ?_⟩
  · exact c10_contact_material_addressing.1 MatState.empty
      ⟨⟨-1⟩, ⟨-1⟩, 1, 0, 100, 0, -1⟩ (by decide) (by decide)
  · exact c10_contact_material_addressing.2.1 MatState.empty
      ⟨⟨-1⟩, ⟨-1⟩, 1, 0, 100, 0, -1⟩ [⟨-1⟩] (by decide) (by decide) (by decide)

/-! Body registry: `World.prototype.add` / `World.prototype.remove`. -/

/-- Registry view of a body: the fields read and written by
`World.prototype.add` and `World.prototype.remove`.  The Body class
lives outside src; `worldSet` models whether `body.world` is a
non-null reference and `isRigid` whether the body is a RigidBody (a
body with rotational degrees of freedom, per the spec). -/
structure RBody where
  id : ℕ
  index : ℕ
  worldSet : Bool
  position : Vec3
  velocity : Vec3
  initPosition : Vec3
  initVelocity : Vec3
  isRigid : Bool
  quaternion : Quat
  initQuaternion : Quat
  angularVelocity : Vec3
  initAngularVelocity : Vec3
  timeLastSleepy : ℚ
deriving DecidableEq, Repr

/-- Events dispatched by the registry (`addBodyEvent` and
`removeBodyEvent`, each carrying the body reference). -/
inductive REvent where
  | addBody (b : RBody)
  | removeBody (b : RBody)
deriving DecidableEq, Repr

/-- Registry fragment of the World state: the dense body list, the id
counter, the world time, the size last passed to
`collisionMatrix.setNumObjects`, and the dispatched events. -/
structure WorldReg where
  bodies : List RBody
  nextId : ℕ
  time : ℚ
  collisionMatrixNumObjects : ℕ
  events : List REvent
deriving DecidableEq, Repr

/-- Constructor state of the registry fields. -/
def WorldReg.empty : WorldReg := ⟨[], 0, 0, 0, []⟩

/-- The body record as mutated by `World.prototype.add` (World.js
lines 236-246): fresh id, index = current count, world reference set,
initial kinematic state copied into the live fields, sleep timestamp
set to world time, rotational state copied only for rigid bodies.
Modelled from the spec: the direction of `Vec3.copy` and
`Quaternion.copy` (which live outside src) follows the spec's words
"copies initial position/velocity (and orientation/angular velocity if
rotational) into live fields". -/
def WorldReg.addedBody (w : WorldReg) (b : RBody) : RBody :=
  { b with
    id := w.nextId,
    index := w.bodies.length,
    worldSet := true,
    position := b.initPosition,
    velocity := b.initVelocity,
    timeLastSleepy := w.time,
    angularVelocity := if b.isRigid then b.initAngularVelocity else b.angularVelocity,
    quaternion := if b.isRigid then b.initQuaternion else b.quaternion }

/-- `World.prototype.add` (World.js lines 235-250): assign id and
index, append to the dense list, copy initial state, stamp the sleep
time, resize the collision matrix to the new count, dispatch the
add-body event.  The source performs no membership check. -/
def WorldReg.add (w : WorldReg) (b : RBody) : WorldReg :=
  { w with
    bodies := w.bodies ++ [w.addedBody b],
    nextId := w.nextId + 1,
    collisionMatrixNumObjects := w.bodies.length + 1,
    events := w.events ++ [.addBody (w.addedBody b)] }

/-- Reassign `index := position` for every position at or beyond `k`,
mirroring the compaction loop of `remove` (World.js lines 293-295);
`i` is the position of the head of the remaining list. -/
def reindexFrom (k : ℕ) : ℕ → List RBody → List RBody
  | _, [] => []
  | i, b :: bs =>
    (if k ≤ i then { b with index := i } else b) :: reindexFrom k (i + 1) bs

/-- `World.prototype.remove` (World.js lines 288-299): clear the
body's world reference, splice it out of the dense array at its
recorded index, reassign the indices of the bodies from that position
on, shrink the collision matrix, dispatch the remove-body event. -/
def WorldReg.remove (w : WorldReg) (b : RBody) : WorldReg :=
  { w with
    bodies := reindexFrom b.index 0 (w.bodies.eraseIdx b.index),
    collisionMatrixNumObjects := w.bodies.length - 1,
    events := w.events ++ [.removeBody { b with worldSet := false }] }

/-- An operation on the registry: add a body, or remove the current
member at a given position (the invariant claim applies removes only to
current members; an out-of-range position is a no-op here). -/
inductive RegOp where
  | add (b : RBody)
  | remove (i : ℕ)

/-- Apply one registry operation. -/
def applyRegOp (w : WorldReg) : RegOp → WorldReg
  | .add b => w.add b
  | .remove i =>
    if h : i < w.bodies.length then w.remove (w.bodies.get ⟨i, h⟩) else w

/-- Apply a sequence of registry operations. -/
def applyRegOps (w : WorldReg) (ops : List RegOp) : WorldReg :=
  ops.foldl applyRegOp w

/-- Every body's recorded index equals its position in the dense list. -/
def indexInv (w : WorldReg) : Prop :=
  ∀ i : Fin w.bodies.length, (w.bodies.get i).index = (i : ℕ)

theorem getElem?_eraseIdx_gen :
    ∀ (l : List RBody) (i j : ℕ),
      (l.eraseIdx i)[j]? = if j < i then l[j]? else l[j + 1]? := by
  intro l
  induction l with
  | nil => intro i j; cases i <;> simp [List.eraseIdx]
  | cons b bs ih =>
    intro i j
    cases i with
    | zero => simp [List.eraseIdx]
    | succ i =>
      cases j with
      | zero => simp [List.eraseIdx]
      | succ j =>
        simp only [List.eraseIdx, List.getElem?_cons_succ, ih i j,
          Nat.succ_lt_succ_iff]

theorem reindexFrom_getElem? (k : ℕ) :
    ∀ (l : List RBody) (i j : ℕ),
      (reindexFrom k i l)[j]? =
        (l[j]?).map
          (fun b => if k ≤ i + j then { b with index := i + j } else b) := by
  intro l
  induction l with
  | nil => intro i j; simp [reindexFrom]
  | cons b bs ih =>
    intro i j
    cases j with
    | zero => simp [reindexFrom]
    | succ j =>
      simp only [reindexFrom, List.getElem?_cons_succ, ih (i + 1) j]
      have he : i + 1 + j = i + (j + 1) := by omega
      simp [he]

/-- The index invariant restated through optional indexing. -/
theorem indexInv_iff (w : WorldReg) :
    indexInv w ↔ ∀ (j : ℕ) (b : RBody), w.bodies[j]? = some b → b.index = j := by
  constructor
  · intro h j b hj
    have hjl : j < w.bodies.length := by
      by_contra hc
      rw [List.getElem?_eq_none (by omega)] at hj
      exact Option.noConfusion hj
    have := h ⟨j, hjl⟩
    rw [List.getElem?_eq_getElem hjl] at hj
    cases hj
    exact this
  · intro h i
    exact h i _ (by rw [List.getElem?_eq_getElem i.isLt]; rfl)

theorem indexInv_add (w : WorldReg) (b : RBody) (h : indexInv w) :
    indexInv (w.add b) := by
  rw [indexInv_iff] at h ⊢
  intro j c hj
  show c.index = j
  rcases lt_trichotomy j w.bodies.length with hl | hl | hl
  · rw [show (w.add b).bodies = w.bodies ++ [w.addedBody b] from rfl,
      List.getElem?_append, if_pos hl] at hj
    exact h j c hj
  · subst hl
    rw [show (w.add b).bodies = w.bodies ++ [w.addedBody b] from rfl] at hj
    simp at hj
    subst hj
    rfl
  · rw [show (w.add b).bodies = w.bodies ++ [w.addedBody b] from rfl,
      List.getElem?_eq_none (by simp; omega)] at hj
    exact Option.noConfusion hj

theorem indexInv_remove (w : WorldReg) (i : ℕ) (hi : i < w.bodies.length)
    (h : indexInv w) : indexInv (w.remove (w.bodies.get ⟨i, hi⟩)) := by
  have hidx : (w.bodies.get ⟨i, hi⟩).index = i := h ⟨i, hi⟩
  rw [indexInv_iff]
  intro j c hj
  rw [show (w.remove (w.bodies.get ⟨i, hi⟩)).bodies =
      reindexFrom (w.bodies.get ⟨i, hi⟩).index 0
        (w.bodies.eraseIdx (w.bodies.get ⟨i, hi⟩).index) from rfl,
    hidx, reindexFrom_getElem?, getElem?_eraseIdx_gen] at hj
  rw [indexInv_iff] at h
  by_cases hji : j < i
  · rw [if_pos hji] at hj
    have hle : ¬ i ≤ 0 + j := by omega
    cases hb : w.bodies[j]? with
    | none => rw [hb] at hj; exact Option.noConfusion hj
    | some b0 =>
      rw [hb] at hj
      simp only [Option.map_some, if_neg hle] at hj
      cases hj
      exact h j b0 hb
  · rw [if_neg hji] at hj
    have hle : i ≤ 0 + j := by omega
    cases hb : w.bodies[j + 1]? with
    | none => rw [hb] at hj; exact Option.noConfusion hj
    | some b0 =>
      rw [hb] at hj
      simp only [Option.map_some, if_pos hle] at hj
      cases hj
      simp

theorem indexInv_applyRegOp (w : WorldReg) (op : RegOp) (h : indexInv w) :
    indexInv (applyRegOp w op) := by
  cases op with
  | add b => exact indexInv_add w b h
  | remove i =>
    show indexInv
      (if h2 : i < w.bodies.length then w.remove (w.bodies.get ⟨i, h2⟩) else w)
    by_cases h2 : i < w.bodies.length
    · rw [dif_pos h2]
      exact indexInv_remove w i h2 h
    · rw [dif_neg h2]
      exact h

theorem indexInv_empty : indexInv WorldReg.empty := by
  intro i
  exact absurd i.isLt (by simp [WorldReg.empty])

theorem indexInv_applyRegOps (ops : List RegOp) :
    ∀ w : WorldReg, indexInv w → indexInv (applyRegOps w ops) := by
  induction ops with
  | nil => intro w h; exact h
  | cons op ops ih =>
    intro w h
    exact ih _ (indexInv_applyRegOp w op h)

instance indexInvDecidable (w : WorldReg) : Decidable (indexInv w) :=
  inferInstanceAs
    (Decidable (∀ i : Fin w.bodies.length, (w.bodies.get i).index = (i : ℕ)))

/-- Zero vector used for sample bodies. -/
def v0 : Vec3 := ⟨0, 0, 0⟩

/-- Identity quaternion used for sample bodies. -/
def q0 : Quat := ⟨0, 0, 0, 1⟩

/-- A free-standing sample body. -/
def sampleBody : RBody :=
  ⟨0, 0, false, v0, v0, v0, v0, false, q0, q0, v0, v0, 0⟩

/-- A sample body that already belongs to a world. -/
def ownedBody : RBody :=
  ⟨7, 0, true, v0, v0, v0, v0, false, q0, q0, v0, v0, 0⟩

/-- A free-standing rigid sample body with distinctive initial state. -/
def freeBody : RBody :=
  ⟨0, 0, false, v0, v0, ⟨1, 2, 3⟩, ⟨4, 5, 6⟩, true, q0, ⟨0, 1, 0, 0⟩, v0,
    ⟨7, 8, 9⟩, 0⟩

/-- A two-body world used by the C4 witness. -/
def wTwo : WorldReg := (WorldReg.empty.add sampleBody).add sampleBody

/-- Claim C4: after any sequence of add and remove operations (each
remove applied to a current member), every remaining body's index
field equals its position in the dense body list; moreover add assigns
index = count to the appended body, and remove shifts each body that
followed the removed one down one position with its index decremented
by one. -/
theorem c4_index_invariant :
    (∀ ops : List RegOp, indexInv (applyRegOps WorldReg.empty ops)) ∧
    (∀ (w : WorldReg) (b : RBody),
      (w.add b).bodies[w.bodies.length]? = some (w.addedBody b) ∧
      (w.addedBody b).index = w.bodies.length) ∧
    (∀ (w : WorldReg) (i p : ℕ), indexInv w → ∀ (hi : i < w.bodies.length),
      i < p → p < w.bodies.length →
      (w.remove (w.bodies.get ⟨i, hi⟩)).bodies[p - 1]? =
        (w.bodies[p]?).map (fun b => { b with index := p - 1 })) := by
  refine ⟨fun ops => indexInv_applyRegOps ops WorldReg.empty indexInv_empty,
    fun w b => ⟨by simp [WorldReg.add], rfl⟩, ?_⟩
  intro w i p hinv hi hip hp
  have hidx : (w.bodies.get ⟨i, hi⟩).index = i := hinv ⟨i, hi⟩
  rw [show (w.remove (w.bodies.get ⟨i, hi⟩)).bodies =
      reindexFrom (w.bodies.get ⟨i, hi⟩).index 0
        (w.bodies.eraseIdx (w.bodies.get ⟨i, hi⟩).index) from rfl, hidx,
    reindexFrom_getElem?, getElem?_eraseIdx_gen]
  rw [if_neg (by omega), show p - 1 + 1 = p from by omega]
  have hf : (fun b : RBody =>
      if i ≤ 0 + (p - 1) then { b with index := 0 + (p - 1) } else b) =
      (fun b : RBody => { b with index := p - 1 }) := by
    funext b
    rw [if_pos (by omega), Nat.zero_add]
  rw [hf]

/-- Witness for C4: a two-add-one-remove history keeps the invariant,
appending assigns the new body position 0 in the empty world, and
removing position 0 of a two-body world shifts the old position 1 down
to position 0 with index 0. -/
theorem c4_index_invariant_witness :
    indexInv (applyRegOps WorldReg.empty
      [RegOp.add sampleBody, RegOp.add sampleBody, RegOp.remove 0]) ∧
    (WorldReg.empty.add sampleBody).bodies[0]? =
      some (WorldReg.empty.addedBody sampleBody) ∧
    (wTwo.remove (wTwo.bodies.get ⟨0, by decide⟩)).bodies[0]? =
      (wTwo.bodies[1]?).map (fun b => { b with index := 0 }) := by
  refine ⟨c4_index_invariant.1 _,
    (c4_index_invariant.2.1 WorldReg.empty sampleBody).1, ?_⟩
  exact c4_index_invariant.2.2 wTwo 0 1 (by decide) (by decide)
    (by decide) (by decide)

/-- Counterexample to C2 as stated: a body whose world reference is
already set is nevertheless appended by `add` — the call does not fail
and the registry is modified. -/
theorem c2_add_membership_counterexample :
    ownedBody.worldSet = true ∧
    WorldReg.empty.bodies.length = 0 ∧
    (WorldReg.empty.add ownedBody).bodies.length = 1 := by
  decide

/-- Claim C2 amended: `add` performs no membership check; calling it on
a body that already belongs to a world does not fail, appends the body
again with a fresh id and index = current count, and re-points its
world reference. -/
theorem c2_add_no_check (w : WorldReg) (b : RBody) (_h : b.worldSet = true) :
    (w.add b).bodies.length = w.bodies.length + 1 ∧
    (w.add b).bodies[w.bodies.length]? = some (w.addedBody b) ∧
    (w.addedBody b).id = w.nextId ∧
    (w.addedBody b).index = w.bodies.length ∧
    (w.addedBody b).worldSet = true :=
  ⟨by simp [WorldReg.add], by simp [WorldReg.add], rfl, rfl, rfl⟩

/-- Witness for the amended C2 at a concrete already-owned body. -/
theorem c2_add_no_check_witness :
    ownedBody.worldSet = true ∧
    (WorldReg.empty.add ownedBody).bodies.length =
      WorldReg.empty.bodies.length + 1 ∧
    (WorldReg.empty.add ownedBody).bodies[WorldReg.empty.bodies.length]? =
      some (WorldReg.empty.addedBody ownedBody) :=
  ⟨by decide, (c2_add_no_check WorldReg.empty ownedBody (by decide)).1,
    (c2_add_no_check WorldReg.empty ownedBody (by decide)).2.1⟩

/-- Claim C8: for a body not in any world, `add` copies the stored
initial position and velocity (and initial orientation and angular
velocity for a rigid body) into the live fields, stamps the sleep
timestamp with the world time, resizes the collision matrix to the new
body count, and dispatches an add-body event carrying the body. -/
theorem c8_add_initial_state (w : WorldReg) (b : RBody)
    (_h : b.worldSet = false) :
    (w.add b).bodies = w.bodies ++ [w.addedBody b] ∧
    (w.addedBody b).position = b.initPosition ∧
    (w.addedBody b).velocity = b.initVelocity ∧
    (w.addedBody b).timeLastSleepy = w.time ∧
    (b.isRigid = true →
      (w.addedBody b).quaternion = b.initQuaternion ∧
      (w.addedBody b).angularVelocity = b.initAngularVelocity) ∧
    (w.add b).collisionMatrixNumObjects = w.bodies.length + 1 ∧
    (w.add b).events = w.events ++ [.addBody (w.addedBody b)] := by
  refine ⟨rfl, rfl, rfl, rfl, ?_, rfl, rfl⟩
  intro hr
  constructor <;> simp [WorldReg.addedBody, hr]

/-- Witness for C8 at a concrete rigid body outside any world. -/
theorem c8_add_initial_state_witness :
    freeBody.worldSet = false ∧ freeBody.isRigid = true ∧
    (WorldReg.empty.addedBody freeBody).position = freeBody.initPosition ∧
    (WorldReg.empty.addedBody freeBody).quaternion = freeBody.initQuaternion ∧
    (WorldReg.empty.add freeBody).events =
      WorldReg.empty.events ++ [.addBody (WorldReg.empty.addedBody freeBody)] :=
  ⟨by decide, by decide,
    (c8_add_initial_state WorldReg.empty freeBody (by decide)).2.1,
    ((c8_add_initial_state WorldReg.empty freeBody (by decide)).2.2.2.2.1
      (by decide)).1,
    (c8_add_initial_state WorldReg.empty freeBody (by decide)).2.2.2.2.2.2⟩

/-! Step timing: dt resolution, the step counter, and the quaternion
renormalization cadence. -/

/-- Timing fragment of the World state: `default_dt` and `last_dt`
(World.js lines 72-74), `time` (line 63) and `stepnumber` (line 70). -/
structure StepClock where
  default_dt : ℚ
  last_dt : ℚ
  time : ℚ
  stepnumber : ℕ
deriving DecidableEq, Repr

/-- Constructor values: `default_dt = 1/60`, `last_dt = default_dt`,
`time = 0`, `stepnumber = 0`. -/
def StepClock.init : StepClock := ⟨1/60, 1/60, 0, 0⟩

/-- The step size used by `World.prototype.step` (World.js lines
409-411): an omitted `dt` falls back to `this.last_dt ||
this.default_dt`; zero is the only falsy rational. -/
def resolveDt (w : StepClock) : Option ℚ → ℚ
  | none => if w.last_dt = 0 then w.default_dt else w.last_dt
  | some d => d

/-- The effect of one `step` call on the timing state: `time += dt` and
`stepnumber += 1` (World.js lines 697-698).  No other timing field is
written; in particular `World.prototype.step` contains no assignment to
`last_dt`. -/
def stepClock (w : StepClock) (dt? : Option ℚ) : StepClock :=
  { w with time := w.time + resolveDt w dt?, stepnumber := w.stepnumber + 1 }

/-- Fold a sequence of `step` calls over the timing state. -/
def stepClockRun (w : StepClock) (dts : List (Option ℚ)) : StepClock :=
  dts.foldl stepClock w

/-- Claim C1 is violated by the code: after `step(1/10)`, a `step()`
with no argument resolves the step size to the fixed default 1/60, not
to the previously supplied 1/10, because `step` never writes
`last_dt`. -/
theorem c1_dt_not_remembered :
    resolveDt (stepClock StepClock.init (some (1/10))) none = 1/60 ∧
    (1 : ℚ)/60 ≠ 1/10 ∧
    (stepClock StepClock.init (some (1/10))).last_dt =
      StepClock.init.last_dt := by
  refine ⟨?_, by norm_num, rfl⟩
  show (if (1 : ℚ)/60 = 0 then (1 : ℚ)/60 else (1 : ℚ)/60) = 1/60
  rw [if_neg (by norm_num : ¬ ((1 : ℚ)/60 = 0))]

/-- Motion-state bit flags.  Modelled from the spec: the motion-state
tag is a bit flag with values STATIC, DYNAMIC, KINEMATIC (the Body
class lives outside src; only distinctness of the bits matters here). -/
def Body.DYNAMIC : ℕ := 1

/-- STATIC motion-state bit flag (modelled from the spec). -/
def Body.STATIC : ℕ := 2

/-- KINEMATIC motion-state bit flag (modelled from the spec). -/
def Body.KINEMATIC : ℕ := 4

/-- The fields of a body read by the quaternion-integration fragment of
`step` (World.js lines 627-668): motion state, sleep flag, presence of
an angular velocity (the `if(b.angularVelocity)` truthiness test), the
quaternion and the angular velocity. -/
structure IBody where
  motionstate : ℕ
  sleeping : Bool
  hasAngular : Bool
  quaternion : Quat
  angularVelocity : Vec3
deriving DecidableEq, Repr

/-- Quaternion Hamilton product.  Modelled from the spec: `w.mult(quat,
wq)` computes (ω as pure quaternion)·q; Quaternion.mult lives outside
src and the spec gives the derivative formula dq/dt = ½·ω_quat·q. -/
def quatMult (a b : Quat) : Quat :=
  ⟨a.w * b.x + a.x * b.w + a.y * b.z - a.z * b.y,
   a.w * b.y - a.x * b.z + a.y * b.w + a.z * b.x,
   a.w * b.z + a.x * b.y - a.y * b.x + a.z * b.w,
   a.w * b.w - a.x * b.x - a.y * b.y - a.z * b.z⟩

/-- The quaternion derivative update of `step` (World.js lines
654-660): `q += half_dt * (ω_quat * q)` componentwise. -/
def quatDerivUpdate (halfDt : ℚ) (q : Quat) (av : Vec3) : Quat :=
  let wq := quatMult ⟨av.x, av.y, av.z, 0⟩ q
  ⟨q.x + halfDt * wq.x, q.y + halfDt * wq.y,
   q.z + halfDt * wq.z, q.w + halfDt * wq.w⟩

/-- The normalization gate of `step` (World.js line 621):
`stepnumber % (quatNormalizeSkip+1) === 0`. -/
def quatNormalizeFlag (stepnumber skip : ℕ) : Bool :=
  stepnumber % (skip + 1) == 0

/-- The quaternion produced for one body by the integration loop of
`step` (World.js lines 632-668), restricted to the quaternion field.
The normalization routine (`Quaternion.normalize` or `normalizeFast`,
both outside src) is abstracted as `normFn`. -/
def integrateBodyQuat (normFn : Quat → Quat) (stepnumber skip : ℕ)
    (halfDt : ℚ) (b : IBody) : Quat :=
  if (b.motionstate &&& (Body.DYNAMIC ||| Body.KINEMATIC)) ≠ 0 ∧
      b.sleeping = false then
    if b.hasAngular then
      let q2 := quatDerivUpdate halfDt b.quaternion b.angularVelocity
      if quatNormalizeFlag stepnumber skip then normFn q2 else q2
    else b.quaternion
  else b.quaternion

theorem stepClockRun_stepnumber (dts : List (Option ℚ)) :
    ∀ w : StepClock, (stepClockRun w dts).stepnumber =
      w.stepnumber + dts.length := by
  induction dts with
  | nil => intro w; simp [stepClockRun]
  | cons d l ih =>
    intro w
    show (stepClockRun (stepClock w d) l).stepnumber = _
    rw [ih (stepClock w d)]
    show w.stepnumber + 1 + l.length = w.stepnumber + (l.length + 1)
    omega

/-- Claim C6: the step counter counts steps from 0, and the quaternion
of a rotational, awake, dynamic-or-kinematic body is renormalized
during step number n exactly when n ≡ 0 (mod quatNormalizeSkip + 1);
on every other step it keeps the unnormalized derivative-updated
value. -/
theorem c6_quat_normalize_cadence (dts : List (Option ℚ))
    (normFn : Quat → Quat) (skip : ℕ) (halfDt : ℚ) (b : IBody)
    (hm : (b.motionstate &&& (Body.DYNAMIC ||| Body.KINEMATIC)) ≠ 0)
    (hs : b.sleeping = false) (ha : b.hasAngular = true) :
    (stepClockRun StepClock.init dts).stepnumber = dts.length ∧
    (dts.length % (skip + 1) = 0 →
      integrateBodyQuat normFn dts.length skip halfDt b =
        normFn (quatDerivUpdate halfDt b.quaternion b.angularVelocity)) ∧
    (dts.length % (skip + 1) ≠ 0 →
      integrateBodyQuat normFn dts.length skip halfDt b =
        quatDerivUpdate halfDt b.quaternion b.angularVelocity) := by
  refine ⟨by rw [stepClockRun_stepnumber]; simp [StepClock.init], ?_, ?_⟩
  · intro h
    simp [integrateBodyQuat, hm, hs, ha, quatNormalizeFlag, h]
  · intro h
    simp [integrateBodyQuat, hm, hs, ha, quatNormalizeFlag, h]

/-- A dynamic, awake, rotational sample body. -/
def rigidIBody : IBody := ⟨1, false, true, q0, v0⟩

/-- Witness for C6: with no steps taken (step number 0) and skip = 1,
the quaternion of a dynamic awake rotational body is normalized. -/
theorem c6_quat_normalize_cadence_witness :
    ((rigidIBody.motionstate &&& (Body.DYNAMIC ||| Body.KINEMATIC)) ≠ 0) ∧
    (stepClockRun StepClock.init []).stepnumber = 0 ∧
    integrateBodyQuat id 0 1 0 rigidIBody =
      id (quatDerivUpdate 0 rigidIBody.quaternion rigidIBody.angularVelocity) := by
  have h := c6_quat_normalize_cadence [] id 1 0 rigidIBody (by decide) rfl rfl
  exact ⟨by decide, h.1, h.2.1 (by decide)⟩

/-! Contact processing: the per-contact loop of `step` (World.js lines
470-554): contact/friction equation synthesis, the friction pool, the
collision matrix and collide-event edge detection. -/

/-- Collision view of a body: the fields of `c.bi`/`c.bj` read by the
contact loop. -/
structure CBody where
  id : ℕ
  position : Vec3
  invMass : ℚ
  collisionResponse : Bool
  material : Option Material
deriving DecidableEq, Repr

/-- A candidate contact as produced by the contact generator: the two
body references, the contact-point offsets `ri`/`rj`, the normal `ni`,
and the fields the loop writes (restitution, penetration, stiffness,
regularization time). -/
structure Contact where
  bi : CBody
  bj : CBody
  ri : Vec3
  rj : Vec3
  ni : Vec3
  restitution : ℚ
  penetration : ℚ
  stiffness : ℚ
  regularizationTime : ℚ
deriving DecidableEq, Repr

/-- A friction equation: body references, force bounds and the copied
relative vectors.  The tangent directions are built by `Vec3.tangents`
(outside src) and are not modelled; no claim mentions them. -/
structure FrictionEq where
  biId : ℕ
  bjId : ℕ
  minForce : ℚ
  maxForce : ℚ
  ri : Vec3
  rj : Vec3
deriving DecidableEq, Repr

/-- `new FrictionEquation(bi, bj, slipForce)`.  Modelled from the spec:
the constructor (outside src) bounds the tangential force by the slip
force; every field is overwritten by the loop before use. -/
def mkFrictionEquation (biId bjId : ℕ) (slip : ℚ) : FrictionEq :=
  ⟨biId, bjId, -slip, slip, v0, v0⟩

/-- An equation handed to `solver.addEquation`. -/
inductive SolverEq where
  | contact (c : Contact)
  | friction (f : FrictionEq)
deriving DecidableEq, Repr

/-- Canonical unordered pair of body ids. -/
def pairKey (a b : ℕ) : ℕ × ℕ := if a ≤ b then (a, b) else (b, a)

/-- Collision matrix.  Modelled from the spec: a symmetric boolean
relation over body-id pairs with canonical unordered-pair addressing
(ArrayCollisionMatrix lives outside src); represented as the list of
canonical pairs currently set. -/
abbrev CMatrix := List (ℕ × ℕ)

/-- `collisionMatrix.get(bi, bj)`. -/
def cmGet (m : CMatrix) (a b : ℕ) : Bool := m.contains (pairKey a b)

/-- `collisionMatrix.set(bi, bj, true)`. -/
def cmSetTrue (m : CMatrix) (a b : ℕ) : CMatrix :=
  if m.contains (pairKey a b) then m else pairKey a b :: m

/-- The state threaded through the contact loop: the equations added to
the solver, the world's `frictionEquations` list, the friction pool,
the current collision matrix, the dispatched collide events (receiver
id, other id) and the wake-up calls. -/
structure LoopState where
  solverEqs : List SolverEq
  frictionEquations : List FrictionEq
  pool : List FrictionEq
  matrix : CMatrix
  events : List (ℕ × ℕ)
  wakes : List ℕ
deriving DecidableEq, Repr

/-- The gap `g = (xj + rj − xi − ri) · ni` (World.js lines 486-490). -/
def contactGap (c : Contact) : ℚ :=
  (c.bj.position.x + c.rj.x - c.bi.position.x - c.ri.x) * c.ni.x +
  (c.bj.position.y + c.rj.y - c.bi.position.y - c.ri.y) * c.ni.y +
  (c.bj.position.z + c.rj.z - c.bi.position.z - c.ri.z) * c.ni.z

/-- `pool.length ? pool.pop() : new FrictionEquation(bi, bj, slip)`
(World.js lines 512-513): pop the last pooled equation, or construct a
fresh one. -/
def poolPop (p : List FrictionEq) (biId bjId : ℕ) (slip : ℚ) :
    FrictionEq × List FrictionEq :=
  if p.isEmpty then (mkFrictionEquation biId bjId slip, p)
  else (p.getLastD (mkFrictionEquation biId bjId slip), p.dropLast)

/-- The equation-synthesis branch of the contact loop (World.js lines
494-535): when both bodies have collision response enabled, annotate
the contact from the resolved contact material and add it to the
solver; when the resolved friction coefficient is positive, obtain two
friction equations (from the pool when possible), set their bodies,
bounds `±(μ·|gravity|)·reducedMass` and relative vectors, record them
in `frictionEquations` and add them to the solver. -/
def synthContactEquations (cm : ContactMaterial) (gnorm g : ℚ)
    (st : LoopState) (c : Contact) : LoopState :=
  if c.bi.collisionResponse && c.bj.collisionResponse then
    let c2 := { c with
      restitution := cm.restitution,
      penetration := g,
      stiffness := cm.contactEquationStiffness,
      regularizationTime := cm.contactEquationRegularizationTime }
    let stc := { st with solverEqs := st.solverEqs ++ [.contact c2] }
    if cm.friction > 0 then
      let mug := cm.friction * gnorm
      let rm0 := c.bi.invMass + c.bj.invMass
      let reducedMass := if rm0 > 0 then 1 / rm0 else rm0
      let pe1 := poolPop stc.pool c.bi.id c.bj.id (mug * reducedMass)
      let pe2 := poolPop pe1.2 c.bi.id c.bj.id (mug * reducedMass)
      let f1 := { pe1.1 with
        biId := c.bi.id, bjId := c.bj.id,
        minForce := -(mug * reducedMass), maxForce := mug * reducedMass,
        ri := c.ri, rj := c.rj }
      let f2 := { pe2.1 with
        biId := c.bi.id, bjId := c.bj.id,
        minForce := -(mug * reducedMass), maxForce := mug * reducedMass,
        ri := c.ri, rj := c.rj }
      { stc with
        pool := pe2.2,
        frictionEquations := stc.frictionEquations ++ [f1, f2],
        solverEqs := stc.solverEqs ++ [.friction f1, .friction f2] }
    else stc
  else st

/-- The contact material resolved for a contact (World.js line 482):
`getContactMaterial(bi.material, bj.material) || defaultContactMaterial`. -/
def resolvedCM (mw : MatState) (defaultCM : ContactMaterial) (c : Contact) :
    ContactMaterial :=
  (getContactMaterial mw c.bi.material c.bj.material).getD defaultCM

/-- One iteration of the contact loop of `step` (World.js lines
470-554) for contact `c`: resolve the contact material (falling back to
the default), compute the gap, and on penetration run the
equation-synthesis branch, record the pair as touching in the current
collision matrix, and on a rising edge (current differs from previous)
dispatch a collide event to each body and wake both. -/
def processContact (mw : MatState) (defaultCM : ContactMaterial)
    (prev : CMatrix) (gnorm : ℚ) (st : LoopState) (c : Contact) :
    LoopState :=
  let cm := resolvedCM mw defaultCM c
  let g := contactGap c
  if g < 0 then
    let st1 := synthContactEquations cm gnorm g st c
    let m2 := cmSetTrue st1.matrix c.bi.id c.bj.id
    if cmGet m2 c.bi.id c.bj.id != cmGet prev c.bi.id c.bj.id then
      { st1 with
        matrix := m2,
        events := st1.events ++ [(c.bi.id, c.bj.id), (c.bj.id, c.bi.id)],
        wakes := st1.wakes ++ [c.bi.id, c.bj.id] }
    else { st1 with matrix := m2 }
  else st

/-- The contact loop over the step's contact list. -/
def processContacts (mw : MatState) (defaultCM : ContactMaterial)
    (prev : CMatrix) (gnorm : ℚ) (st : LoopState) (cs : List Contact) :
    LoopState :=
  cs.foldl (processContact mw defaultCM prev gnorm) st

/-- The collision phase of one step: after `collisionMatrixTick`
(World.js lines 221-226, 436) the current matrix is reset and `prev` is
the matrix filled during the preceding step; the friction equations of
the previous step have been transferred into the pool (lines 463-468),
and the loop starts with empty equation lists and no events. -/
def stepCollisionPhase (mw : MatState) (defaultCM : ContactMaterial)
    (prev : CMatrix) (pool0 : List FrictionEq) (gnorm : ℚ)
    (cs : List Contact) : LoopState :=
  processContacts mw defaultCM prev gnorm ⟨[], [], pool0, [], [], []⟩ cs

/-- Penetrating contacts of the unordered pair `{a, b}` in a contact
list. -/
def countPen (cs : List Contact) (a b : ℕ) : ℕ :=
  cs.countP
    (fun c => decide (pairKey c.bi.id c.bj.id = pairKey a b ∧ contactGap c < 0))

theorem pairKey_comm (a b : ℕ) : pairKey a b = pairKey b a := by
  unfold pairKey
  rcases le_total a b with h | h
  · by_cases h2 : b ≤ a
    · have he : a = b := le_antisymm h h2
      subst he; rfl
    · rw [if_pos h, if_neg h2]
  · by_cases h2 : a ≤ b
    · have he : a = b := le_antisymm h2 h
      subst he; rfl
    · rw [if_neg h2, if_pos h]

theorem pairKey_eq_iff (a b x y : ℕ) :
    pairKey a b = pairKey x y ↔ (a = x ∧ b = y) ∨ (a = y ∧ b = x) := by
  unfold pairKey
  split_ifs <;> simp [Prod.ext_iff] <;> omega

theorem cmGet_congr (m : CMatrix) {a b x y : ℕ}
    (h : pairKey a b = pairKey x y) : cmGet m a b = cmGet m x y := by
  unfold cmGet
  rw [h]

theorem cmGet_cmSetTrue_self (m : CMatrix) (a b : ℕ) :
    cmGet (cmSetTrue m a b) a b = true := by
  unfold cmGet cmSetTrue
  by_cases h : m.contains (pairKey a b)
  · rw [if_pos h]
    exact h
  · rw [if_neg h]
    simp [List.contains_cons]

theorem cmGet_cmSetTrue_other (m : CMatrix) (a b x y : ℕ)
    (h : pairKey x y ≠ pairKey a b) :
    cmGet (cmSetTrue m a b) x y = cmGet m x y := by
  unfold cmGet cmSetTrue
  by_cases hc : m.contains (pairKey a b)
  · rw [if_pos hc]
  · rw [if_neg hc]
    simp [List.contains_cons, h]

theorem synth_events (cm : ContactMaterial) (gnorm g : ℚ) (st : LoopState)
    (c : Contact) : (synthContactEquations cm gnorm g st c).events = st.events := by
  unfold synthContactEquations
  split
  · split
    · rfl
    · rfl
  · rfl

theorem synth_wakes (cm : ContactMaterial) (gnorm g : ℚ) (st : LoopState)
    (c : Contact) : (synthContactEquations cm gnorm g st c).wakes = st.wakes := by
  unfold synthContactEquations
  split
  · split
    · rfl
    · rfl
  · rfl

theorem synth_matrix (cm : ContactMaterial) (gnorm g : ℚ) (st : LoopState)
    (c : Contact) : (synthContactEquations cm gnorm g st c).matrix = st.matrix := by
  unfold synthContactEquations
  split
  · split
    · rfl
    · rfl
  · rfl

theorem processContact_events (mw : MatState) (dCM : ContactMaterial)
    (prev : CMatrix) (gnorm : ℚ) (st : LoopState) (c : Contact) :
    (processContact mw dCM prev gnorm st c).events =
      st.events ++
        (if contactGap c < 0 ∧ cmGet prev c.bi.id c.bj.id = false
          then [(c.bi.id, c.bj.id), (c.bj.id, c.bi.id)] else []) := by
  simp only [processContact]
  by_cases hg : contactGap c < 0
  · rw [if_pos hg, cmGet_cmSetTrue_self]
    cases hpc : cmGet prev c.bi.id c.bj.id with
    | false =>
      rw [if_pos (by rfl : (true != false) = true)]
      rw [if_pos ⟨hg, rfl⟩]
      show (synthContactEquations _ gnorm (contactGap c) st c).events ++ _ = _
      rw [synth_events]
    | true =>
      rw [if_neg (by simp : ¬ ((true != true) = true))]
      rw [if_neg (by simp : ¬ (contactGap c < 0 ∧ true = false))]
      show (synthContactEquations _ gnorm (contactGap c) st c).events = _
      rw [synth_events, List.append_nil]
  · rw [if_neg hg, if_neg (by intro h2; exact hg h2.1), List.append_nil]

theorem processContact_wakes (mw : MatState) (dCM : ContactMaterial)
    (prev : CMatrix) (gnorm : ℚ) (st : LoopState) (c : Contact) :
    (processContact mw dCM prev gnorm st c).wakes =
      st.wakes ++
        (if contactGap c < 0 ∧ cmGet prev c.bi.id c.bj.id = false
          then [c.bi.id, c.bj.id] else []) := by
  simp only [processContact]
  by_cases hg : contactGap c < 0
  · rw [if_pos hg, cmGet_cmSetTrue_self]
    cases hpc : cmGet prev c.bi.id c.bj.id with
    | false =>
      rw [if_pos (by rfl : (true != false) = true)]
      rw [if_pos ⟨hg, rfl⟩]
      show (synthContactEquations _ gnorm (contactGap c) st c).wakes ++ _ = _
      rw [synth_wakes]
    | true =>
      rw [if_neg (by simp : ¬ ((true != true) = true))]
      rw [if_neg (by simp : ¬ (contactGap c < 0 ∧ true = false))]
      show (synthContactEquations _ gnorm (contactGap c) st c).wakes = _
      rw [synth_wakes, List.append_nil]
  · rw [if_neg hg, if_neg (by intro h2; exact hg h2.1), List.append_nil]

theorem processContact_matrix (mw : MatState) (dCM : ContactMaterial)
    (prev : CMatrix) (gnorm : ℚ) (st : LoopState) (c : Contact) :
    (processContact mw dCM prev gnorm st c).matrix =
      if contactGap c < 0 then cmSetTrue st.matrix c.bi.id c.bj.id
      else st.matrix := by
  simp only [processContact]
  by_cases hg : contactGap c < 0
  · rw [if_pos hg, if_pos hg]
    split
    · show cmSetTrue (synthContactEquations _ gnorm (contactGap c) st c).matrix _ _ = _
      rw [synth_matrix]
    · show cmSetTrue (synthContactEquations _ gnorm (contactGap c) st c).matrix _ _ = _
      rw [synth_matrix]
  · rw [if_neg hg, if_neg hg]

theorem processContact_solverEqs (mw : MatState) (dCM : ContactMaterial)
    (prev : CMatrix) (gnorm : ℚ) (st : LoopState) (c : Contact) :
    (processContact mw dCM prev gnorm st c).solverEqs =
      if contactGap c < 0 then
        (synthContactEquations (resolvedCM mw dCM c)
          gnorm (contactGap c) st c).solverEqs
      else st.solverEqs := by
  simp only [processContact]
  by_cases hg : contactGap c < 0
  · rw [if_pos hg, if_pos hg]
    split
    · rfl
    · rfl
  · rw [if_neg hg, if_neg hg]

theorem processContact_frictionEquations (mw : MatState) (dCM : ContactMaterial)
    (prev : CMatrix) (gnorm : ℚ) (st : LoopState) (c : Contact) :
    (processContact mw dCM prev gnorm st c).frictionEquations =
      if contactGap c < 0 then
        (synthContactEquations (resolvedCM mw dCM c)
          gnorm (contactGap c) st c).frictionEquations
      else st.frictionEquations := by
  simp only [processContact]
  by_cases hg : contactGap c < 0
  · rw [if_pos hg, if_pos hg]
    split
    · rfl
    · rfl
  · rw [if_neg hg, if_neg hg]

theorem processContact_pool (mw : MatState) (dCM : ContactMaterial)
    (prev : CMatrix) (gnorm : ℚ) (st : LoopState) (c : Contact) :
    (processContact mw dCM prev gnorm st c).pool =
      if contactGap c < 0 then
        (synthContactEquations (resolvedCM mw dCM c)
          gnorm (contactGap c) st c).pool
      else st.pool := by
  simp only [processContact]
  by_cases hg : contactGap c < 0
  · rw [if_pos hg, if_pos hg]
    split
    · rfl
    · rfl
  · rw [if_neg hg, if_neg hg]

theorem countPen_cons (c : Contact) (cs : List Contact) (a b : ℕ) :
    countPen (c :: cs) a b = countPen cs a b +
      (if pairKey c.bi.id c.bj.id = pairKey a b ∧ contactGap c < 0
        then 1 else 0) := by
  unfold countPen
  rw [List.countP_cons]
  by_cases h : pairKey c.bi.id c.bj.id = pairKey a b ∧ contactGap c < 0
  · rw [if_pos h, if_pos (by simpa using h)]
  · rw [if_neg h, if_neg (by simpa using h)]

/-- Per-step collide-event count for an unordered pair: events for the
pair are dispatched only when the previous-step matrix does not record
the pair, and then once per penetrating contact of the pair. -/
theorem processContacts_events_count (mw : MatState) (dCM : ContactMaterial)
    (prev : CMatrix) (gnorm : ℚ) (a b : ℕ) (hab : a ≠ b)
    (cs : List Contact) :
    ∀ st : LoopState, (∀ c ∈ cs, c.bi.id ≠ c.bj.id) →
      (processContacts mw dCM prev gnorm st cs).events.count (a, b) =
        st.events.count (a, b) +
          (if cmGet prev a b then 0 else countPen cs a b) := by
  induction cs with
  | nil =>
    intro st _
    show st.events.count (a, b) = _
    simp [countPen]
  | cons c cs ih =>
    intro st hcs
    have hcs2 : ∀ x ∈ cs, x.bi.id ≠ x.bj.id :=
      fun x hx => hcs x (List.mem_cons_of_mem c hx)
    show (processContacts mw dCM prev gnorm
      (processContact mw dCM prev gnorm st c) cs).events.count (a, b) = _
    rw [ih (processContact mw dCM prev gnorm st c) hcs2,
      processContact_events, List.count_append, countPen_cons]
    have hEcount : (if contactGap c < 0 ∧ cmGet prev c.bi.id c.bj.id = false
        then [(c.bi.id, c.bj.id), (c.bj.id, c.bi.id)]
        else ([] : List (ℕ × ℕ))).count (a, b) =
        if pairKey c.bi.id c.bj.id = pairKey a b ∧ contactGap c < 0 ∧
            cmGet prev a b = false then 1 else 0 := by
      by_cases hpk : pairKey c.bi.id c.bj.id = pairKey a b
      · rw [cmGet_congr prev hpk]
        by_cases hg : contactGap c < 0
        · cases hprev : cmGet prev a b with
          | false =>
            rw [if_pos ⟨hg, rfl⟩, if_pos ⟨hpk, hg, rfl⟩]
            rcases (pairKey_eq_iff c.bi.id c.bj.id a b).mp hpk with
              ⟨h1, h2⟩ | ⟨h1, h2⟩
            · rw [h1, h2]
              simp [List.count_cons, Prod.ext_iff, Ne.symm hab]
            · rw [h1, h2]
              simp [List.count_cons, Prod.ext_iff, Ne.symm hab]
          | true =>
            rw [if_neg (by simp), if_neg (by simp)]
            simp
        · rw [if_neg (fun hx => hg hx.1), if_neg (fun hx => hg hx.2.1)]
          simp
      · rw [if_neg
          (fun hx : pairKey c.bi.id c.bj.id = pairKey a b ∧
            contactGap c < 0 ∧ cmGet prev a b = false => hpk hx.1)]
        have hne1 : ((a, b) : ℕ × ℕ) ≠ (c.bi.id, c.bj.id) := by
          intro hx
          rw [Prod.mk.injEq] at hx
          exact hpk (by rw [hx.1, hx.2])
        have hne2 : ((a, b) : ℕ × ℕ) ≠ (c.bj.id, c.bi.id) := by
          intro hx
          rw [Prod.mk.injEq] at hx
          exact hpk (by rw [hx.1, hx.2, pairKey_comm])
        split
        · simp [List.count_cons, hne1, hne2]
        · simp
    rw [hEcount]
    cases hprev : cmGet prev a b with
    | true =>
      rw [if_neg (fun hx => Bool.noConfusion hx.2.2)]
      simp
    | false =>
      rw [if_neg Bool.false_ne_true, if_neg Bool.false_ne_true]
      by_cases hcond : pairKey c.bi.id c.bj.id = pairKey a b ∧ contactGap c < 0
      · rw [if_pos ⟨hcond.1, hcond.2, rfl⟩, if_pos hcond]
        omega
      · rw [if_neg (fun hx => hcond ⟨hx.1, hx.2.1⟩), if_neg hcond]
        omega

/-- Per-step collision-matrix update for an unordered pair: the pair is
recorded as touching exactly when some contact of the pair penetrates
during the step (or it was already recorded in the threaded state). -/
theorem processContacts_matrix_get (mw : MatState) (dCM : ContactMaterial)
    (prev : CMatrix) (gnorm : ℚ) (a b : ℕ) (cs : List Contact) :
    ∀ st : LoopState,
      cmGet (processContacts mw dCM prev gnorm st cs).matrix a b =
        (cmGet st.matrix a b || decide (0 < countPen cs a b)) := by
  induction cs with
  | nil =>
    intro st
    show cmGet st.matrix a b = _
    simp [countPen]
  | cons c cs ih =>
    intro st
    show cmGet (processContacts mw dCM prev gnorm
      (processContact mw dCM prev gnorm st c) cs).matrix a b = _
    rw [ih (processContact mw dCM prev gnorm st c), processContact_matrix,
      countPen_cons]
    by_cases hpk : pairKey c.bi.id c.bj.id = pairKey a b
    · by_cases hg : contactGap c < 0
      · rw [if_pos hg]
        have hset : cmGet (cmSetTrue st.matrix c.bi.id c.bj.id) a b = true := by
          rw [cmGet_congr _ hpk.symm]
          exact cmGet_cmSetTrue_self _ _ _
        rw [hset]
        have hpos : 0 < countPen cs a b +
            (if pairKey c.bi.id c.bj.id = pairKey a b ∧ contactGap c < 0
              then 1 else 0) := by
          rw [if_pos ⟨hpk, hg⟩]
          omega
        rw [decide_eq_true hpos]
        simp
      · rw [if_neg hg, if_neg (fun hx => hg hx.2)]
        simp
    · have hGet : cmGet
          (if contactGap c < 0 then cmSetTrue st.matrix c.bi.id c.bj.id
            else st.matrix) a b = cmGet st.matrix a b := by
        split
        · exact cmGet_cmSetTrue_other _ _ _ _ _ (fun hx => hpk hx.symm)
        · rfl
      rw [hGet, if_neg (fun hx => hpk hx.1)]
      simp

/-- Wake-ups accompany collide events: each dispatched event wakes its
receiver, so the wake list is the receiver projection of the event
list. -/
theorem processContacts_wakes_map (mw : MatState) (dCM : ContactMaterial)
    (prev : CMatrix) (gnorm : ℚ) (cs : List Contact) :
    ∀ st : LoopState, st.wakes = st.events.map Prod.fst →
      (processContacts mw dCM prev gnorm st cs).wakes =
        (processContacts mw dCM prev gnorm st cs).events.map Prod.fst := by
  induction cs with
  | nil => intro st h; exact h
  | cons c cs ih =>
    intro st h
    show (processContacts mw dCM prev gnorm
      (processContact mw dCM prev gnorm st c) cs).wakes = _
    apply ih
    rw [processContact_wakes, processContact_events, h, List.map_append]
    congr 1
    split
    · rfl
    · rfl

/-- A body at the origin with collision response enabled. -/
def cbodyA : CBody := ⟨0, v0, 1, true, none⟩

/-- A body penetrating from below along z, response enabled. -/
def cbodyB : CBody := ⟨1, ⟨0, 0, -1⟩, 1, true, none⟩

/-- A body at the origin with collision response disabled. -/
def cbodyNoResp : CBody := ⟨0, v0, 1, false, none⟩

/-- A penetrating contact (gap −1) between two response-enabled
bodies. -/
def cEx : Contact := ⟨cbodyA, cbodyB, v0, v0, ⟨0, 0, 1⟩, 0, 0, 0, 0⟩

/-- A penetrating contact whose first body has response disabled. -/
def cExNoResp : Contact := ⟨cbodyNoResp, cbodyB, v0, v0, ⟨0, 0, 1⟩, 0, 0, 0, 0⟩

/-- A stand-in default contact material with friction 1. -/
def dCMex : ContactMaterial := ⟨⟨-1⟩, ⟨-1⟩, 1, 0, 100, 0, -1⟩

/-- Claim C3: for a penetrating contact between bodies with collision
response enabled, when the resolved friction coefficient is positive
the loop adds exactly two friction equations to the solver (after the
contact equation), both with force bounds ±(μ·|gravity|·reducedMass)
where reducedMass = 1/(invMassA+invMassB) when the sum is positive and
0 otherwise; when the resolved friction coefficient is 0, no friction
equation is added for the contact. -/
theorem c3_friction_equations (mw : MatState) (dCM : ContactMaterial)
    (prev : CMatrix) (gnorm : ℚ) (st : LoopState) (c : Contact)
    (hg : contactGap c < 0)
    (hri : c.bi.collisionResponse = true) (hrj : c.bj.collisionResponse = true)
    (hmi : 0 ≤ c.bi.invMass) (hmj : 0 ≤ c.bj.invMass) :
    (0 < (resolvedCM mw dCM c).friction →
      ∃ c2 f1 f2,
        (processContact mw dCM prev gnorm st c).frictionEquations =
          st.frictionEquations ++ [f1, f2] ∧
        (processContact mw dCM prev gnorm st c).solverEqs =
          st.solverEqs ++ [.contact c2, .friction f1, .friction f2] ∧
        f1.minForce = -((resolvedCM mw dCM c).friction * gnorm *
          (if 0 < c.bi.invMass + c.bj.invMass
            then 1 / (c.bi.invMass + c.bj.invMass) else 0)) ∧
        f1.maxForce = (resolvedCM mw dCM c).friction * gnorm *
          (if 0 < c.bi.invMass + c.bj.invMass
            then 1 / (c.bi.invMass + c.bj.invMass) else 0) ∧
        f2.minForce = f1.minForce ∧ f2.maxForce = f1.maxForce) ∧
    ((resolvedCM mw dCM c).friction = 0 →
      (processContact mw dCM prev gnorm st c).frictionEquations =
        st.frictionEquations ∧
      ∃ c2, (processContact mw dCM prev gnorm st c).solverEqs =
        st.solverEqs ++ [.contact c2]) := by
  have hrm : (if 0 < c.bi.invMass + c.bj.invMass
      then 1 / (c.bi.invMass + c.bj.invMass)
      else c.bi.invMass + c.bj.invMass) =
      (if 0 < c.bi.invMass + c.bj.invMass
        then 1 / (c.bi.invMass + c.bj.invMass) else 0) := by
    by_cases h0 : 0 < c.bi.invMass + c.bj.invMass
    · rw [if_pos h0, if_pos h0]
    · rw [if_neg h0, if_neg h0]
      exact le_antisymm (not_lt.mp h0) (add_nonneg hmi hmj)
  constructor
  · intro hmu
    rw [processContact_frictionEquations, processContact_solverEqs,
      if_pos hg, if_pos hg]
    simp only [synthContactEquations, hri, hrj, Bool.and_self, if_true,
      if_pos hmu]
    refine ⟨_, _, _, rfl, by rw [List.append_assoc]; rfl, ?_, ?_, rfl, rfl⟩
    · show -(((resolvedCM mw dCM c).friction * gnorm) *
          (if 0 < c.bi.invMass + c.bj.invMass
            then 1 / (c.bi.invMass + c.bj.invMass)
            else c.bi.invMass + c.bj.invMass)) = _
      rw [hrm]
    · show ((resolvedCM mw dCM c).friction * gnorm) *
          (if 0 < c.bi.invMass + c.bj.invMass
            then 1 / (c.bi.invMass + c.bj.invMass)
            else c.bi.invMass + c.bj.invMass) = _
      rw [hrm]
  · intro h0
    rw [processContact_frictionEquations, processContact_solverEqs,
      if_pos hg, if_pos hg]
    simp only [synthContactEquations, hri, hrj, Bool.and_self, if_true]
    rw [if_neg (by rw [h0]; exact lt_irrefl 0)]
    exact ⟨rfl, _, rfl⟩

/-- Witness for C3 at a concrete penetrating contact with friction 1,
gravity norm 10 and unit inverse masses (reduced mass 1/2). -/
theorem c3_friction_equations_witness :
    contactGap cEx < 0 ∧
    0 < (resolvedCM MatState.empty dCMex cEx).friction ∧
    (∃ c2 f1 f2,
      (processContact MatState.empty dCMex [] 10
        (⟨[], [], [], [], [], []⟩ : LoopState) cEx).frictionEquations =
        (⟨[], [], [], [], [], []⟩ : LoopState).frictionEquations ++ [f1, f2] ∧
      (processContact MatState.empty dCMex [] 10
        (⟨[], [], [], [], [], []⟩ : LoopState) cEx).solverEqs =
        (⟨[], [], [], [], [], []⟩ : LoopState).solverEqs ++
          [.contact c2, .friction f1, .friction f2] ∧
      f1.minForce = -((resolvedCM MatState.empty dCMex cEx).friction * 10 *
        (if 0 < cEx.bi.invMass + cEx.bj.invMass
          then 1 / (cEx.bi.invMass + cEx.bj.invMass) else 0)) ∧
      f1.maxForce = (resolvedCM MatState.empty dCMex cEx).friction * 10 *
        (if 0 < cEx.bi.invMass + cEx.bj.invMass
          then 1 / (cEx.bi.invMass + cEx.bj.invMass) else 0) ∧
      f2.minForce = f1.minForce ∧ f2.maxForce = f1.maxForce) := by
  have hg : contactGap cEx < 0 := by
    norm_num [contactGap, cEx, cbodyA, cbodyB, v0]
  have hmu : 0 < (resolvedCM MatState.empty dCMex cEx).friction := by decide
  exact ⟨hg, hmu,
    (c3_friction_equations MatState.empty dCMex [] 10
      (⟨[], [], [], [], [], []⟩ : LoopState) cEx hg rfl rfl
      (by decide) (by decide)).1 hmu⟩

/-- Claim C5 amended: collide events for a pair are dispatched in a
step exactly when the pair penetrates this step and was not recorded as
touching in the previous step's matrix (the rising edge, i.e. the
first step of a maximal penetrating run); on that step each of the two
bodies receives one collide event per penetrating contact of the pair
(exactly once when the step has a single contact for the pair), each
dispatch accompanied by wake-ups of both bodies; on later steps of the
run no collide event is dispatched.  The matrix after the step records
the pair exactly when some contact of the pair penetrated, carrying the
run state to the next step. -/
theorem c5_collide_rising_edge (mw : MatState) (dCM : ContactMaterial)
    (prev : CMatrix) (pool0 : List FrictionEq) (gnorm : ℚ)
    (cs : List Contact) (a b : ℕ) (hab : a ≠ b)
    (hcs : ∀ c ∈ cs, c.bi.id ≠ c.bj.id) :
    (stepCollisionPhase mw dCM prev pool0 gnorm cs).events.count (a, b) =
      (if cmGet prev a b then 0 else countPen cs a b) ∧
    cmGet (stepCollisionPhase mw dCM prev pool0 gnorm cs).matrix a b =
      decide (0 < countPen cs a b) ∧
    (stepCollisionPhase mw dCM prev pool0 gnorm cs).wakes =
      (stepCollisionPhase mw dCM prev pool0 gnorm cs).events.map Prod.fst := by
  refine ⟨?_, ?_, ?_⟩
  · show (processContacts mw dCM prev gnorm
      (⟨[], [], pool0, [], [], []⟩ : LoopState) cs).events.count (a, b) = _
    rw [processContacts_events_count mw dCM prev gnorm a b hab cs
      (⟨[], [], pool0, [], [], []⟩ : LoopState) hcs]
    simp
  · show cmGet (processContacts mw dCM prev gnorm
      (⟨[], [], pool0, [], [], []⟩ : LoopState) cs).matrix a b = _
    rw [processContacts_matrix_get mw dCM prev gnorm a b cs
      (⟨[], [], pool0, [], [], []⟩ : LoopState)]
    rfl
  · exact processContacts_wakes_map mw dCM prev gnorm cs
      (⟨[], [], pool0, [], [], []⟩ : LoopState) rfl

/-- Witness for the amended C5: a single penetrating contact on a
rising edge dispatches exactly one collide event to body 0 about
body 1. -/
theorem c5_collide_rising_edge_witness :
    (0 : ℕ) ≠ 1 ∧
    countPen [cEx] 0 1 = 1 ∧
    (stepCollisionPhase MatState.empty dCMex [] [] 0 [cEx]).events.count (0, 1) =
      (if cmGet ([] : CMatrix) 0 1 then 0 else countPen [cEx] 0 1) := by
  have hg : contactGap cEx < 0 := by
    norm_num [contactGap, cEx, cbodyA, cbodyB, v0]
  have hpen : countPen [cEx] 0 1 = 1 := by
    unfold countPen
    rw [List.countP_cons, decide_eq_true ⟨by decide, hg⟩]
    simp
  refine ⟨by decide, hpen, ?_⟩
  exact (c5_collide_rising_edge MatState.empty dCMex [] [] 0 [cEx] 0 1
    (by decide)
    (fun c hc => by rw [List.mem_singleton] at hc; subst hc; decide)).1

/-- Counterexample to C5 as stated: on a rising-edge step whose contact
list holds two penetrating contacts of the same pair, each body
receives the collide event twice, not exactly once. -/
theorem c5_collide_once_counterexample :
    contactGap cEx < 0 ∧
    cmGet ([] : CMatrix) cEx.bi.id cEx.bj.id = false ∧
    (stepCollisionPhase MatState.empty dCMex [] [] 0 [cEx, cEx]).events.count
      (cEx.bi.id, cEx.bj.id) = 2 := by
  have hg : contactGap cEx < 0 := by
    norm_num [contactGap, cEx, cbodyA, cbodyB, v0]
  refine ⟨hg, rfl, ?_⟩
  show (processContact MatState.empty dCMex [] 0
    (processContact MatState.empty dCMex [] 0
      (⟨[], [], [], [], [], []⟩ : LoopState) cEx)
    cEx).events.count (cEx.bi.id, cEx.bj.id) = 2
  rw [processContact_events, processContact_events, if_pos ⟨hg, rfl⟩]
  decide

/-- Claim C9: for a penetrating contact where at least one body has
collision response disabled, no contact or friction equation is added
to the solver and the pool is untouched, but the pair is still recorded
as touching in the collision matrix, and on a rising edge collide
events are still dispatched to both bodies and both are woken; with the
pair already touching no event fires. -/
theorem c9_no_response_no_equations (mw : MatState) (dCM : ContactMaterial)
    (prev : CMatrix) (gnorm : ℚ) (st : LoopState) (c : Contact)
    (hg : contactGap c < 0)
    (hr : (c.bi.collisionResponse && c.bj.collisionResponse) = false) :
    (processContact mw dCM prev gnorm st c).solverEqs = st.solverEqs ∧
    (processContact mw dCM prev gnorm st c).frictionEquations =
      st.frictionEquations ∧
    (processContact mw dCM prev gnorm st c).pool = st.pool ∧
    cmGet (processContact mw dCM prev gnorm st c).matrix c.bi.id c.bj.id
      = true ∧
    (cmGet prev c.bi.id c.bj.id = false →
      (processContact mw dCM prev gnorm st c).events =
        st.events ++ [(c.bi.id, c.bj.id), (c.bj.id, c.bi.id)] ∧
      (processContact mw dCM prev gnorm st c).wakes =
        st.wakes ++ [c.bi.id, c.bj.id]) ∧
    (cmGet prev c.bi.id c.bj.id = true →
      (processContact mw dCM prev gnorm st c).events = st.events ∧
      (processContact mw dCM prev gnorm st c).wakes = st.wakes) := by
  have hsynth : ∀ cm g, synthContactEquations cm gnorm g st c = st := by
    intro cm g
    unfold synthContactEquations
    rw [hr]
    simp
  refine ⟨?_, ?_, ?_, ?_, ?_, ?_⟩
  · rw [processContact_solverEqs, if_pos hg, hsynth]
  · rw [processContact_frictionEquations, if_pos hg, hsynth]
  · rw [processContact_pool, if_pos hg, hsynth]
  · rw [processContact_matrix, if_pos hg]
    exact cmGet_cmSetTrue_self _ _ _
  · intro hp
    exact ⟨by rw [processContact_events, if_pos ⟨hg, hp⟩],
      by rw [processContact_wakes, if_pos ⟨hg, hp⟩]⟩
  · intro hp
    exact ⟨by rw [processContact_events,
        if_neg (fun hx => Bool.noConfusion (hp.symm.trans hx.2)),
        List.append_nil],
      by rw [processContact_wakes,
        if_neg (fun hx => Bool.noConfusion (hp.symm.trans hx.2)),
        List.append_nil]⟩

/-- Witness for C9: a concrete penetrating contact with response
disabled on one body adds no solver equation yet dispatches the
rising-edge events. -/
theorem c9_no_response_no_equations_witness :
    contactGap cExNoResp < 0 ∧
    (cExNoResp.bi.collisionResponse && cExNoResp.bj.collisionResponse)
      = false ∧
    (processContact MatState.empty dCMex [] 0
      (⟨[], [], [], [], [], []⟩ : LoopState) cExNoResp).solverEqs =
      ([] : List SolverEq) ∧
    (processContact MatState.empty dCMex [] 0
      (⟨[], [], [], [], [], []⟩ : LoopState) cExNoResp).events =
      ([] : List (ℕ × ℕ)) ++
        [(cExNoResp.bi.id, cExNoResp.bj.id),
          (cExNoResp.bj.id, cExNoResp.bi.id)] := by
  have hg : contactGap cExNoResp < 0 := by
    norm_num [contactGap, cExNoResp, cbodyNoResp, cbodyB, v0]
  have h := c9_no_response_no_equations MatState.empty dCMex [] 0
    (⟨[], [], [], [], [], []⟩ : LoopState) cExNoResp hg rfl
  exact ⟨hg, rfl, h.1, (h.2.2.2.2.1 rfl).1⟩

end Cannon
